import Mathlib

/-!
Shallow embedding of the FleetSpeed ingestion-validation-windowing-ranking
pipeline (pysrc/process.py), together with theorems checking the
natural-language specification against it.

Modelling conventions:
* Python `datetime` values are records of their calendar fields, including
  the `microsecond` field used by `truncate_ms`.
* Speeds (Python floats) are modelled as rationals; every claim under
  scrutiny only compares, maximises and copies speeds, so rounding plays
  no role.
* Nanosecond clock readings (`time_ns()`) are integers; the cutoff
  `now - time_to_live_secs * 1e9` is modelled exactly as
  `now - ttl * 1000000000`.
* A polars DataFrame is a list of row records; `unique` is modelled as
  first-occurrence deduplication and `sort(descending)` as a stable
  insertion sort, both of which realise the set-of-rows semantics of the
  corresponding polars operations.
* The input of `validate_extract_vessel_data` is the parse of one text
  line: `none` stands for a structurally malformed line (unparsable JSON,
  missing or ill-typed fields) and `some r` for a line carrying an
  identifier (string or integer), a numeric speed, a timestamp field
  (`none` inside the record when the timestamp string cannot be parsed
  into a date-time) and arbitrary unknown extra fields. The result type
  `Except PyExc _` records whether a Python exception escapes the call.
* The regex class `\d` of the mmsi pattern matches any Unicode decimal
  digit (general category Nd) in both engines pydantic can use; it is
  modelled by the Nd codepoint-range table `ndRanges`, not by the
  ASCII-only `Char.isDigit`.
-/

/-- Calendar fields of a Python `datetime` value. -/
structure PyDatetime where
  year : Nat
  month : Nat
  day : Nat
  hour : Nat
  minute : Nat
  second : Nat
  microsecond : Nat
deriving DecidableEq, Repr

/-- The `VesselDataDict` TypedDict of process.py: validated vessel data
plus the ns-precision creation time `created_at`. -/
structure VesselDataDict where
  mmsi : String
  speedOverGround : ℚ
  msgtime : PyDatetime
  created_at : Int
deriving DecidableEq, Repr

/-- The cutoff `now - time_to_live_secs * 1e9` computed by `strip_data`. -/
def time_cutoff (time_to_live_secs : Nat) (now : Int) : Int :=
  now - (time_to_live_secs : Int) * 1000000000

/-- The final `for n, entry in enumerate(data): if entry["created_at"] >=
time_cutoff: return data[n:]` loop of `strip_data`: the suffix starting at
the first entry at or after the cutoff, `none` when the loop falls
through. -/
def findFromCutoff (cutoff : Int) : List VesselDataDict → Option (List VesselDataDict)
  | [] => none
  | e :: rest =>
    if cutoff ≤ e.created_at then some (e :: rest) else findFromCutoff cutoff rest

/-- `strip_data` of process.py. Case 1 keeps everything when the buffer is
small; case 2 keeps the `num_messages_to_keep` most recent entries when the
entry at Python index `-num_messages_to_keep` is older than the cutoff
(for `num_messages_to_keep = 0` Python index `-0` is index `0` and
`data[-0:]` is the whole list); case 3 scans for the first entry at or
after the cutoff. The implicit Python fall-through returns `none`. -/
def strip_data (data : List VesselDataDict) (time_to_live_secs : Nat)
    (num_messages_to_keep : Nat) (now : Int) : Option (List VesselDataDict) :=
  let cutoff : Int := time_cutoff time_to_live_secs now
  if data.length ≤ num_messages_to_keep then some data
  else
    let idx := if num_messages_to_keep = 0 then 0 else data.length - num_messages_to_keep
    match data.get? idx with
    | none => none
    | some e =>
      if e.created_at < cutoff then some (data.drop idx)
      else findFromCutoff cutoff data

/-- The buffer ordering `strip_data` assumes: `created_at` is pairwise
non-decreasing along the list. -/
def orderedByCreation : List VesselDataDict → Bool
  | [] => true
  | a :: rest =>
    rest.all (fun b => decide (a.created_at ≤ b.created_at)) && orderedByCreation rest

/-- A row of the ranked output of `rank_by_speed`: the columns selected by
`df.select(pl.col("speedOverGround").max().over("mmsi"), "mmsi",
"msgtime")`. -/
structure RankedRow where
  speedOverGround : ℚ
  mmsi : String
  msgtime : PyDatetime
deriving DecidableEq, Repr

/-- The windowed projection `pl.col("speedOverGround").max().over("mmsi")`
of the `select`: every row keeps its own `mmsi` and `msgtime` but its
speed column is replaced by the maximum speed of its `mmsi` group. The
fold starts from the row's own speed, which lies in its own group, so the
result is exactly the group maximum. -/
def select_max_over (df : List VesselDataDict) : List RankedRow :=
  df.map (fun r =>
    { speedOverGround :=
        (df.filter (fun x => x.mmsi == r.mmsi)).foldl
          (fun acc x => max acc x.speedOverGround) r.speedOverGround,
      mmsi := r.mmsi, msgtime := r.msgtime })

/-- Helper of `dedupFirst`: drops every element already in `seen` and
records the kept ones. -/
def dedupFirstAux {α : Type} [DecidableEq α] (seen : List α) : List α → List α
  | [] => []
  | a :: rest =>
    if a ∈ seen then dedupFirstAux seen rest
    else a :: dedupFirstAux (a :: seen) rest

/-- Row deduplication keeping first occurrences, modelling `.unique()`. -/
def dedupFirst {α : Type} [DecidableEq α] (l : List α) : List α :=
  dedupFirstAux [] l

/-- Insertion into a descending-by-speed list, placing the new row before
the first strictly slower row (stable). -/
def insertDesc (r : RankedRow) : List RankedRow → List RankedRow
  | [] => [r]
  | a :: rest =>
    if a.speedOverGround ≤ r.speedOverGround then r :: a :: rest
    else a :: insertDesc r rest

/-- Stable sort descending by `speedOverGround`, modelling
`.sort("speedOverGround", descending=True)`. -/
def sortDesc : List RankedRow → List RankedRow
  | [] => []
  | a :: rest => insertDesc a (sortDesc rest)

/-- `rank_by_speed` of process.py: windowed max over `mmsi`, then
`unique`, then sort descending by speed. -/
def rank_by_speed (df : List VesselDataDict) : List RankedRow :=
  sortDesc (dedupFirst (select_max_over df))

/-- One call of `rank_by_speed` seen as a state transformer on the window:
the pair of the window after the call and the returned ranking. The source
builds the ranking from non-mutating polars expressions over `df` and
never rebinds or writes into `df`, so the post-call window is the input
window. -/
def rank_by_speed_call (df : List VesselDataDict) :
    List VesselDataDict × List RankedRow :=
  (df, rank_by_speed df)

/-- A row of the batch-mode DataFrame: the vessel data columns plus the
`batch_number` column added by `convert_batch_to_dataframe`. -/
structure BatchRow where
  mmsi : String
  speedOverGround : ℚ
  msgtime : PyDatetime
  created_at : Int
  batch_number : Int
deriving DecidableEq, Repr

/-- `batch.select("batch_number").max().item()`: the maximum batch number
of the incoming batch, `none` on an empty batch (polars max of an empty
column is null and `.item()` yields Python `None`). -/
def maxBatchNumber : List BatchRow → Option Int
  | [] => none
  | r :: rest =>
    match maxBatchNumber rest with
    | none => some r.batch_number
    | some m => some (max r.batch_number m)

/-- `add_batch_to_df` of process.py: concatenate, then, when `num_batches`
is set and the incoming batch is non-empty, keep only the rows whose
`batch_number` exceeds `max_batch_number - num_batches`. -/
def add_batch_to_df (batch full_df : List BatchRow) (num_batches : Option Int) :
    List BatchRow :=
  let df := full_df ++ batch
  match num_batches with
  | none => df
  | some nb =>
    match maxBatchNumber batch with
    | none => df
    | some m => df.filter (fun r => decide (m - nb < r.batch_number))

/-- The `mmsi` field of a parsed input line: pydantic accepts it as a JSON
string or integer (`str | int` in the before-mode validator). -/
inductive MmsiField where
  | str (s : String)
  | int (n : Int)
deriving DecidableEq, Repr

/-- The before-mode validator `cast_mmsi`: `str(val)`, the canonical
decimal string form for integers and the identity on strings. -/
def cast_mmsi : MmsiField → String
  | .str s => s
  | .int n => toString n

/-- The codepoint ranges of the Unicode general category Nd (decimal
digit), the character class the regex `\d` matches in both engines
pydantic can use (its default rust-regex and the python `re` fallback):
each script's run of digits zero to nine. -/
def ndRanges : List (Nat × Nat) :=
  [(0x30, 0x39),       -- ASCII
   (0x660, 0x669),     -- Arabic-Indic
   (0x6F0, 0x6F9),     -- Extended Arabic-Indic
   (0x7C0, 0x7C9),     -- NKo
   (0x966, 0x96F),     -- Devanagari
   (0x9E6, 0x9EF),     -- Bengali
   (0xA66, 0xA6F),     -- Gurmukhi
   (0xAE6, 0xAEF),     -- Gujarati
   (0xB66, 0xB6F),     -- Oriya
   (0xBE6, 0xBEF),     -- Tamil
   (0xC66, 0xC6F),     -- Telugu
   (0xCE6, 0xCEF),     -- Kannada
   (0xD66, 0xD6F),     -- Malayalam
   (0xDE6, 0xDEF),     -- Sinhala Lith
   (0xE50, 0xE59),     -- Thai
   (0xED0, 0xED9),     -- Lao
   (0xF20, 0xF29),     -- Tibetan
   (0x1040, 0x1049),   -- Myanmar
   (0x1090, 0x1099),   -- Myanmar Shan
   (0x17E0, 0x17E9),   -- Khmer
   (0x1810, 0x1819),   -- Mongolian
   (0x1946, 0x194F),   -- Limbu
   (0x19D0, 0x19D9),   -- New Tai Lue
   (0x1A80, 0x1A89),   -- Tai Tham Hora
   (0x1A90, 0x1A99),   -- Tai Tham Tham
   (0x1B50, 0x1B59),   -- Balinese
   (0x1BB0, 0x1BB9),   -- Sundanese
   (0x1C40, 0x1C49),   -- Lepcha
   (0x1C50, 0x1C59),   -- Ol Chiki
   (0xA620, 0xA629),   -- Vai
   (0xA8D0, 0xA8D9),   -- Saurashtra
   (0xA900, 0xA909),   -- Kayah Li
   (0xA9D0, 0xA9D9),   -- Javanese
   (0xA9F0, 0xA9F9),   -- Myanmar Tai Laing
   (0xAA50, 0xAA59),   -- Cham
   (0xABF0, 0xABF9),   -- Meetei Mayek
   (0xFF10, 0xFF19),   -- Fullwidth
   (0x104A0, 0x104A9), -- Osmanya
   (0x10D30, 0x10D39), -- Hanifi Rohingya
   (0x11066, 0x1106F), -- Brahmi
   (0x110F0, 0x110F9), -- Sora Sompeng
   (0x11136, 0x1113F), -- Chakma
   (0x111D0, 0x111D9), -- Sharada
   (0x112F0, 0x112F9), -- Khudawadi
   (0x11450, 0x11459), -- Newa
   (0x114D0, 0x114D9), -- Tirhuta
   (0x11650, 0x11659), -- Modi
   (0x116C0, 0x116C9), -- Takri
   (0x11730, 0x11739), -- Ahom
   (0x118E0, 0x118E9), -- Warang Citi
   (0x11950, 0x11959), -- Dives Akuru
   (0x11C50, 0x11C59), -- Bhaiksuki
   (0x11D50, 0x11D59), -- Masaram Gondi
   (0x11DA0, 0x11DA9), -- Gunjala Gondi
   (0x11F50, 0x11F59), -- Kawi
   (0x16A60, 0x16A69), -- Mro
   (0x16AC0, 0x16AC9), -- Tangsa
   (0x16B50, 0x16B59), -- Pahawh Hmong
   (0x1D7CE, 0x1D7FF), -- Mathematical digit variants
   (0x1E140, 0x1E149), -- Nyiakeng Puachue Hmong
   (0x1E2F0, 0x1E2F9), -- Wancho
   (0x1E4F0, 0x1E4F9), -- Nag Mundari
   (0x1E950, 0x1E959), -- Adlam
   (0x1FBF0, 0x1FBF9)] -- Segmented digits

/-- The regex character class `\d` of the mmsi pattern: any Unicode
decimal digit (general category Nd), not only the ASCII digits. -/
def isRegexDigit (c : Char) : Bool :=
  ndRanges.any (fun p => p.1 ≤ c.toNat && c.toNat ≤ p.2)

/-- The `constr(min_length=9, max_length=9, pattern=r"^\d+$")` constraint
on `mmsi`: exactly nine characters, all Unicode decimal digits. -/
def mmsiConstrOk (s : String) : Bool :=
  s.toList.length == 9 && s.toList.all (fun c => isRegexDigit c)

/-- The after-mode validator `truncate_ms`:
`val.replace(microsecond=0)`. -/
def truncate_ms (val : PyDatetime) : PyDatetime :=
  { val with microsecond := 0 }

/-- The parse of one input line, as handed to pydantic validation.
`none` models a structurally malformed line (unparsable JSON, missing or
ill-typed fields). Inside a structurally well-formed line, `msgtime =
none` models a timestamp string that cannot be parsed into a date-time,
and `extras` carries the unknown extra fields of the line, which the
model ignores. -/
structure RawRecord where
  mmsi : MmsiField
  speedOverGround : ℚ
  msgtime : Option PyDatetime
  extras : List (String × String)
deriving DecidableEq, Repr

/-- The validated `VesselDataModel` contents after field validators. -/
structure VesselDataModel where
  mmsi : String
  speedOverGround : ℚ
  msgtime : PyDatetime
deriving DecidableEq, Repr

/-- Python exceptions relevant to the validator: pydantic raises
`ValidationError` on invalid data; any other exception class is lumped
into `otherExc`. -/
inductive PyExc where
  | validationError
  | otherExc
deriving DecidableEq, Repr

/-- `VesselDataModel.model_validate_json(line)`: raises `ValidationError`
when the line is structurally malformed, when the timestamp cannot be
parsed, when the cast identifier violates its constraint, or when the
speed is negative (`confloat(ge=0.0)`); otherwise yields the model with
`cast_mmsi` and `truncate_ms` applied. -/
def model_validate_json : Option RawRecord → Except PyExc VesselDataModel
  | none => .error .validationError
  | some r =>
    match r.msgtime with
    | none => .error .validationError
    | some t =>
      if mmsiConstrOk (cast_mmsi r.mmsi) && decide (0 ≤ r.speedOverGround) then
        .ok { mmsi := cast_mmsi r.mmsi, speedOverGround := r.speedOverGround,
              msgtime := truncate_ms t }
      else .error .validationError

/-- `validate_extract_vessel_data` of process.py, with the possibility of
an escaping exception made explicit: the `try` body runs
`model_validate_json`; an `except ValidationError` clause turns that one
exception class into the normal return value `none`; any other exception
would propagate as `.error`. On success the model is dumped and
`created_at` is set to the `time_ns()` reading `now_ns`. -/
def validate_extract_vessel_data (now_ns : Int) (line : Option RawRecord) :
    Except PyExc (Option VesselDataDict) :=
  match model_validate_json line with
  | .error .validationError => .ok none
  | .error e => .error e
  | .ok m =>
    .ok (some { mmsi := m.mmsi, speedOverGround := m.speedOverGround,
                msgtime := m.msgtime, created_at := now_ns })

/-- A shared datetime value for concrete test records. -/
def dt0 : PyDatetime := ⟨2022, 12, 12, 10, 10, 10, 0⟩

/-- A second datetime value, distinct from `dt0`. -/
def dt1 : PyDatetime := ⟨2022, 12, 12, 10, 10, 11, 0⟩

/-- A vessel record with a given speed, report time and creation time. -/
def mkRec (sp : ℚ) (t : PyDatetime) (c : Int) : VesselDataDict :=
  { mmsi := "111111111", speedOverGround := sp, msgtime := t, created_at := c }

/-- A batch row carrying a given batch number. -/
def mkBatchRow (bn : Int) : BatchRow :=
  { mmsi := "111111111", speedOverGround := 1, msgtime := dt0, created_at := 0,
    batch_number := bn }

/-- The parsed form of the specification scenario line with identifier
123456789, speed 5.0 and timestamp 2022-12-12T10:10:10.123456. -/
def scenario_line : RawRecord :=
  { mmsi := .str "123456789", speedOverGround := 5,
    msgtime := some ⟨2022, 12, 12, 10, 10, 10, 123456⟩, extras := [] }

/-- A well-formed line whose identifier consists of the nine Arabic-Indic
digits one to nine (U+0661 to U+0669): nine Unicode decimal digits, none
of them an ASCII digit. -/
def unicodeMmsiLine : RawRecord :=
  { mmsi := .str "١٢٣٤٥٦٧٨٩", speedOverGround := 5,
    msgtime := some ⟨2022, 12, 12, 10, 10, 10, 123456⟩, extras := [] }

/-- The position probed in case 2 of `strip_data` is in bounds whenever
case 1 was not taken. -/
theorem strip_idx_lt {data : List VesselDataDict} {k : Nat} (h : k < data.length) :
    (if k = 0 then 0 else data.length - k) < data.length := by
  split <;> omega

/-- `strip_data` keeps everything when the buffer is at most the floor. -/
theorem strip_data_of_le {data : List VesselDataDict} {ttl k : Nat} {now : Int}
    (h : data.length ≤ k) : strip_data data ttl k now = some data := by
  simp [strip_data, h]

/-- Unfolding of `strip_data` past case 1: the probed entry decides
between the count-based cap and the age scan. -/
theorem strip_data_of_lt {data : List VesselDataDict} {ttl k : Nat} {now : Int}
    (h : k < data.length) {e : VesselDataDict}
    (he : data.get? (if k = 0 then 0 else data.length - k) = some e) :
    strip_data data ttl k now =
      if e.created_at < time_cutoff ttl now then
        some (data.drop (if k = 0 then 0 else data.length - k))
      else findFromCutoff (time_cutoff ttl now) data := by
  simp only [strip_data]
  rw [if_neg (Nat.not_le.mpr h), he]

/-- When some entry of the list is at or after the cutoff, the scan of
case 3 returns and yields exactly the entries from the first such entry
on, that is, the list with its maximal too-old prefix dropped. -/
theorem findFromCutoff_eq_dropWhile {c : Int} {l : List VesselDataDict}
    (h : ∃ x ∈ l, c ≤ x.created_at) :
    findFromCutoff c l = some (l.dropWhile (fun r => decide (r.created_at < c))) := by
  induction l with
  | nil => simp at h
  | cons a rest ih =>
    by_cases hc : c ≤ a.created_at
    · simp [findFromCutoff, hc, List.dropWhile_cons, not_lt.mpr hc]
    · have hrest : ∃ x ∈ rest, c ≤ x.created_at := by
        rcases h with ⟨x, hx, hcx⟩
        rcases List.mem_cons.mp hx with rfl | hx
        · exact absurd hcx hc
        · exact ⟨x, hx, hcx⟩
      simpa [findFromCutoff, hc, List.dropWhile_cons, lt_of_not_le hc] using ih hrest

/-- An entry at position `i` at or after the cutoff bounds the scan: at
least the `length - i` entries from position `i` on survive. -/
theorem length_sub_le_dropWhile_length {c : Int} :
    ∀ (l : List VesselDataDict) (i : Nat) (e : VesselDataDict),
      l.get? i = some e → c ≤ e.created_at →
      l.length - i ≤ (l.dropWhile (fun r => decide (r.created_at < c))).length := by
  intro l
  induction l with
  | nil => intro i e he _; simp at he
  | cons a rest ih =>
    intro i e he hce
    cases i with
    | zero =>
      simp only [List.get?] at he
      cases he
      simp [List.dropWhile_cons, not_lt.mpr hce]
    | succ n =>
      simp only [List.get?] at he
      by_cases hd : a.created_at < c
      · have := ih n e he hce
        simpa [List.dropWhile_cons, hd, Nat.succ_sub_succ] using this
      · simp [List.dropWhile_cons, hd]
        omega

/-- On a buffer ordered by creation time, dropping the maximal too-old
prefix is the same as filtering for entries at or after the cutoff. -/
theorem dropWhile_eq_filter_of_ordered {c : Int} {l : List VesselDataDict}
    (h : orderedByCreation l = true) :
    l.dropWhile (fun r => decide (r.created_at < c)) =
      l.filter (fun r => decide (c ≤ r.created_at)) := by
  induction l with
  | nil => rfl
  | cons a rest ih =>
    rw [orderedByCreation, Bool.and_eq_true] at h
    obtain ⟨hall, hrest⟩ := h
    by_cases hc : a.created_at < c
    · simpa [List.dropWhile_cons, List.filter_cons, hc, not_le.mpr hc] using ih hrest
    · have hca : c ≤ a.created_at := not_lt.mp hc
      have hfr : rest.filter (fun r => decide (c ≤ r.created_at)) = rest := by
        apply List.filter_eq_self.mpr
        intro x hx
        have hax := List.all_eq_true.mp hall x hx
        simp only [decide_eq_true_eq] at hax ⊢
        exact le_trans hca hax
      simp [List.dropWhile_cons, List.filter_cons, hc, hca, hfr]

/-- A three-record buffer, ordered by creation time, whose entry at
position 1 is older than the cutoff for ttl 1s and now 2s (in ns). -/
def winExample : List VesselDataDict :=
  [mkRec 1 dt0 0, mkRec 2 dt0 500000000, mkRec 3 dt0 2000000000]

/-- A two-record buffer whose second entry sits exactly on the cutoff for
ttl 1s and now 2s (in ns). -/
def winPair : List VesselDataDict :=
  [mkRec 1 dt0 0, mkRec 2 dt0 1000000000]

/-- Claim C10: for every input list (ordered or not) and all bounds,
strip_data (evict) returns a contiguous suffix of its input list: it only
removes a prefix, never reorders, duplicates or invents records, and the
implicit fall-through path returning no list is never taken. -/
theorem strip_data_returns_suffix (data : List VesselDataDict)
    (ttl k : Nat) (now : Int) :
    ∃ s, strip_data data ttl k now = some s ∧ s <:+ data := by
  by_cases hlen : data.length ≤ k
  · exact ⟨data, strip_data_of_le hlen, List.suffix_rfl⟩
  · have hlt : k < data.length := Nat.not_le.mp hlen
    have hidx := strip_idx_lt hlt
    have he : data.get? (if k = 0 then 0 else data.length - k) =
        some (data.get ⟨_, hidx⟩) := List.get?_eq_get hidx
    rw [strip_data_of_lt hlt he]
    by_cases hc : (data.get ⟨_, hidx⟩).created_at < time_cutoff ttl now
    · exact ⟨_, by rw [if_pos hc], List.drop_suffix _ _⟩
    · rw [if_neg hc]
      have hmem : ∃ x ∈ data, time_cutoff ttl now ≤ x.created_at :=
        ⟨_, List.get?_mem he, not_lt.mp hc⟩
      rw [findFromCutoff_eq_dropWhile hmem]
      exact ⟨_, rfl, List.dropWhile_suffix _⟩

/-- Claim C2: on a buffer ordered ascending by created_at and a positive
floor, strip_data (evict) implements the three-branch policy: at most
minRecordsToKeep records are returned unchanged; otherwise, when the
record at position length - minRecordsToKeep is older than now -
timeToLive, exactly the most recent minRecordsToKeep records are kept;
otherwise exactly the records with created_at at or after now -
timeToLive are kept. -/
theorem strip_data_three_branch_policy (data : List VesselDataDict)
    (ttl k : Nat) (now : Int)
    (hord : orderedByCreation data = true) (hk : 0 < k) :
    (data.length ≤ k → strip_data data ttl k now = some data) ∧
    (∀ hlt : k < data.length,
      ((data.get ⟨data.length - k, by omega⟩).created_at < time_cutoff ttl now →
        strip_data data ttl k now = some (data.drop (data.length - k))) ∧
      (time_cutoff ttl now ≤ (data.get ⟨data.length - k, by omega⟩).created_at →
        strip_data data ttl k now =
          some (data.filter (fun r => decide (time_cutoff ttl now ≤ r.created_at))))) := by
  refine ⟨fun h => strip_data_of_le h, fun hlt => ?_⟩
  have hk0 : ¬ k = 0 := by omega
  have he2 : data.get? (data.length - k) =
      some (data.get ⟨data.length - k, by omega⟩) := List.get?_eq_get (by omega)
  have he : data.get? (if k = 0 then 0 else data.length - k) =
      some (data.get ⟨data.length - k, by omega⟩) := by
    rw [if_neg hk0]; exact he2
  constructor
  · intro hc
    rw [strip_data_of_lt hlt he, if_neg hk0, if_pos hc]
  · intro hc
    rw [strip_data_of_lt hlt he, if_neg (not_lt.mpr hc)]
    have hmem : ∃ x ∈ data, time_cutoff ttl now ≤ x.created_at :=
      ⟨_, List.get?_mem he2, hc⟩
    rw [findFromCutoff_eq_dropWhile hmem, dropWhile_eq_filter_of_ordered hord]

/-- Witness for claim C2 at a concrete buffer: with floor 2, ttl 1s and
now 2s, the probed entry at position 1 is older than the cutoff, so
exactly the two most recent records remain. -/
theorem strip_data_three_branch_policy_witness :
    strip_data winExample 1 2 2000000000 = some (winExample.drop (winExample.length - 2)) :=
  ((strip_data_three_branch_policy winExample 1 2 2000000000
    (by decide) (by decide)).2 (by decide)).1 (by decide)

/-- Claim C3 counterexample: with floor 1, ttl 1s and now 2s, the buffer
winPair has more than 1 record, the record at position length - 1 is
within the cutoff (the pure age-based branch is taken), yet the result
holds exactly 1 record, not strictly more. -/
theorem strip_data_age_branch_exact_floor :
    1 < winPair.length ∧
    time_cutoff 1 2000000000 ≤ (winPair.get ⟨winPair.length - 1, by decide⟩).created_at ∧
    strip_data winPair 1 1 2000000000 = some [mkRec 2 dt0 1000000000] ∧
    ¬ 1 < ([mkRec 2 dt0 1000000000] : List VesselDataDict).length :=
  ⟨by decide, by decide, by decide, by decide⟩

/-- Claim C3 as amended: whenever the pure age-based branch of strip_data
is taken (more than minRecordsToKeep records, and the record at position
length - minRecordsToKeep within now - timeToLive), the result holds at
least minRecordsToKeep records (strictly more is not guaranteed). -/
theorem strip_data_age_branch_at_least_floor (data : List VesselDataDict)
    (ttl k : Nat) (now : Int) (hk : 0 < k) (hlt : k < data.length)
    (hin : time_cutoff ttl now ≤ (data.get ⟨data.length - k, by omega⟩).created_at) :
    ∃ s, strip_data data ttl k now = some s ∧ k ≤ s.length := by
  have hk0 : ¬ k = 0 := by omega
  have he2 : data.get? (data.length - k) =
      some (data.get ⟨data.length - k, by omega⟩) := List.get?_eq_get (by omega)
  have he : data.get? (if k = 0 then 0 else data.length - k) =
      some (data.get ⟨data.length - k, by omega⟩) := by
    rw [if_neg hk0]; exact he2
  rw [strip_data_of_lt hlt he, if_neg (not_lt.mpr hin)]
  have hmem : ∃ x ∈ data, time_cutoff ttl now ≤ x.created_at :=
    ⟨_, List.get?_mem he2, hin⟩
  rw [findFromCutoff_eq_dropWhile hmem]
  refine ⟨_, rfl, ?_⟩
  have hb := length_sub_le_dropWhile_length (c := time_cutoff ttl now)
    data (data.length - k) _ he2 hin
  omega

/-- Witness for the amended claim C3 at the concrete buffer winPair. -/
theorem strip_data_age_branch_at_least_floor_witness :
    ∃ s, strip_data winPair 1 1 2000000000 = some s ∧ 1 ≤ s.length :=
  strip_data_age_branch_at_least_floor winPair 1 1 2000000000
    (by decide) (by decide) (by decide)

/-- Claim C5: on a buffer ordered ascending by created_at and positive
bounds, after strip_data (evict) the window size never exceeds its
pre-eviction size and never drops below min(minRecordsToKeep,
pre-eviction size). -/
theorem strip_data_size_bounds (data : List VesselDataDict) (ttl k : Nat) (now : Int)
    (hord : orderedByCreation data = true) (httl : 0 < ttl) (hk : 0 < k) :
    ∃ s, strip_data data ttl k now = some s ∧
      s.length ≤ data.length ∧ min k data.length ≤ s.length := by
  by_cases hlen : data.length ≤ k
  · exact ⟨data, strip_data_of_le hlen, le_refl _, min_le_right _ _⟩
  · have hlt : k < data.length := Nat.not_le.mp hlen
    have hk0 : ¬ k = 0 := by omega
    have hmin : min k data.length = k := min_eq_left hlt.le
    have he2 : data.get? (data.length - k) =
        some (data.get ⟨data.length - k, by omega⟩) := List.get?_eq_get (by omega)
    have he : data.get? (if k = 0 then 0 else data.length - k) =
        some (data.get ⟨data.length - k, by omega⟩) := by
      rw [if_neg hk0]; exact he2
    rw [strip_data_of_lt hlt he]
    by_cases hc : (data.get ⟨data.length - k, by omega⟩).created_at < time_cutoff ttl now
    · rw [if_neg hk0, if_pos hc]
      refine ⟨_, rfl, ?_, ?_⟩
      · rw [List.length_drop]; omega
      · rw [List.length_drop, hmin]; omega
    · rw [if_neg hc]
      have hin := not_lt.mp hc
      have hmem : ∃ x ∈ data, time_cutoff ttl now ≤ x.created_at :=
        ⟨_, List.get?_mem he2, hin⟩
      rw [findFromCutoff_eq_dropWhile hmem]
      refine ⟨_, rfl, (List.dropWhile_suffix _).length_le, ?_⟩
      have hb := length_sub_le_dropWhile_length (c := time_cutoff ttl now)
        data (data.length - k) _ he2 hin
      rw [hmin]
      omega

/-- Witness for claim C5 at the concrete buffer winExample. -/
theorem strip_data_size_bounds_witness :
    ∃ s, strip_data winExample 1 2 2000000000 = some s ∧
      s.length ≤ winExample.length ∧ min 2 winExample.length ≤ s.length :=
  strip_data_size_bounds winExample 1 2 2000000000 (by decide) (by decide) (by decide)

/-- Claim C1 refuted on the code at a concrete window: two records of the
one vessel 111111111 at distinct report times (speeds 1 and 4). The
ranking emits two rows for this single distinct id, and its first row
pairs the best speed 4 with the report time dt0 although no record
achieving the maximum was reported at dt0. -/
theorem rank_by_speed_duplicate_entries_per_id :
    rank_by_speed [mkRec 1 dt0 0, mkRec 4 dt1 1] =
      [{ speedOverGround := 4, mmsi := "111111111", msgtime := dt0 },
       { speedOverGround := 4, mmsi := "111111111", msgtime := dt1 }] ∧
    (dedupFirst ((rank_by_speed [mkRec 1 dt0 0, mkRec 4 dt1 1]).map
        (fun r => r.mmsi))).length = 1 ∧
    (rank_by_speed [mkRec 1 dt0 0, mkRec 4 dt1 1]).length = 2 ∧
    ¬ ∃ r ∈ [mkRec 1 dt0 0, mkRec 4 dt1 1],
        r.speedOverGround = 4 ∧ r.msgtime = dt0 :=
  ⟨by decide, by decide, by decide, by decide⟩

/-- Claim C9: a call of rank_by_speed leaves the window unchanged, and a
second call on the same unmodified window returns the identical output,
same rows in the same order. -/
theorem rank_by_speed_pure_and_repeatable (df : List VesselDataDict) :
    (rank_by_speed_call df).1 = df ∧
    (rank_by_speed_call ((rank_by_speed_call df).1)).2 = (rank_by_speed_call df).2 :=
  ⟨rfl, rfl⟩

/-- Claim C4 counterexample: with incoming batch of batch number 1 and
numBatchesToKeep 1, the stored row of batch number 0 is not older than
(less than) the current batch number minus numBatchesToKeep, yet the code
drops it. -/
theorem add_batch_drops_boundary_batch :
    maxBatchNumber [mkBatchRow 1] = some 1 ∧
    ¬ (mkBatchRow 0).batch_number < 1 - 1 ∧
    add_batch_to_df [mkBatchRow 1] [mkBatchRow 0] (some 1) = [mkBatchRow 1] ∧
    mkBatchRow 0 ∉ add_batch_to_df [mkBatchRow 1] [mkBatchRow 0] (some 1) :=
  ⟨by decide, by decide, by decide, by decide⟩

/-- Claim C4 as amended: with num_batches set, a non-empty incoming batch
of maximum batch number m makes add_batch_to_df keep exactly the rows
whose batch number exceeds m - numBatchesToKeep, that is, it drops
exactly those at or below it; an empty incoming batch performs no
truncation and raises no error. -/
theorem add_batch_truncation (batch full_df : List BatchRow) (nb : Int) :
    (batch = [] → add_batch_to_df batch full_df (some nb) = full_df) ∧
    (∀ m, maxBatchNumber batch = some m →
      add_batch_to_df batch full_df (some nb) =
        (full_df ++ batch).filter (fun r => decide (m - nb < r.batch_number))) := by
  constructor
  · rintro rfl
    simp [add_batch_to_df, maxBatchNumber]
  · intro m hm
    simp [add_batch_to_df, hm]

/-- Witness for the amended claim C4, covering both the empty-batch path
and the filtering path at concrete batches. -/
theorem add_batch_truncation_witness :
    add_batch_to_df ([] : List BatchRow) [mkBatchRow 0] (some 1) = [mkBatchRow 0] ∧
    add_batch_to_df [mkBatchRow 1] [mkBatchRow 0] (some 1) =
      ([mkBatchRow 0] ++ [mkBatchRow 1]).filter
        (fun r => decide ((1 : Int) - 1 < r.batch_number)) :=
  ⟨(add_batch_truncation [] [mkBatchRow 0] 1).1 rfl,
   (add_batch_truncation [mkBatchRow 1] [mkBatchRow 0] 1).2 1 rfl⟩

/-- The mmsi constraint holds exactly when the cast identifier consists of
exactly nine Unicode decimal digits. -/
theorem mmsiConstrOk_iff (s : String) :
    mmsiConstrOk s = true ↔
      (s.toList.length = 9 ∧ ∀ c ∈ s.toList, isRegexDigit c = true) := by
  simp [mmsiConstrOk, List.all_eq_true]

/-- Claim C6 counterexample: a structurally well-formed line whose
identifier is the nine Arabic-Indic digits, with valid speed and
timestamp. Its cast identifier does not consist of nine ASCII digits
(no character is an ASCII digit), yet the pattern of nine Unicode
decimal digits satisfies the regex of the mmsi constraint, so validation
accepts the line instead of rejecting it. -/
theorem validate_accepts_unicode_digit_mmsi :
    (¬ ∀ c ∈ (cast_mmsi unicodeMmsiLine.mmsi).toList, c.isDigit = true) ∧
    (cast_mmsi unicodeMmsiLine.mmsi).toList.length = 9 ∧
    validate_extract_vessel_data 7 (some unicodeMmsiLine) =
      .ok (some { mmsi := "١٢٣٤٥٦٧٨٩", speedOverGround := 5, msgtime := dt0,
                  created_at := 7 }) ∧
    validate_extract_vessel_data 7 (some unicodeMmsiLine) ≠ .ok none := by
  refine ⟨by decide, by decide, rfl, ?_⟩
  intro h
  exact Option.noConfusion (Except.ok.inj h)

/-- Claim C6 as amended: validation rejects (returns the normal value
none) exactly when the line is structurally malformed, or its timestamp
cannot be parsed, or the identifier does not reduce to exactly nine
Unicode decimal digits (the regex class of the pattern, wider than the
ASCII digits) after the str cast, or the speed is negative; and the
unknown extra fields of a line play no part in the outcome. -/
theorem validate_rejects_iff (now : Int) (line : Option RawRecord) :
    (validate_extract_vessel_data now line = .ok none ↔
      line = none ∨
      ∃ r, line = some r ∧
        (r.msgtime = none ∨
         ¬ ((cast_mmsi r.mmsi).toList.length = 9 ∧
            ∀ c ∈ (cast_mmsi r.mmsi).toList, isRegexDigit c = true) ∨
         r.speedOverGround < 0)) ∧
    (∀ (r : RawRecord) (e : List (String × String)),
      validate_extract_vessel_data now (some { r with extras := e }) =
        validate_extract_vessel_data now (some r)) := by
  constructor
  · constructor
    · intro hval
      cases line with
      | none => exact Or.inl rfl
      | some r =>
        refine Or.inr ⟨r, rfl, ?_⟩
        cases hm : r.msgtime with
        | none => exact Or.inl rfl
        | some t =>
          by_cases hb : (mmsiConstrOk (cast_mmsi r.mmsi) &&
              decide (0 ≤ r.speedOverGround)) = true
          · simp [validate_extract_vessel_data, model_validate_json, hm, hb] at hval
          · rw [Bool.and_eq_true] at hb
            by_cases hA : mmsiConstrOk (cast_mmsi r.mmsi) = true
            · refine Or.inr (Or.inr ?_)
              have hB : ¬ decide (0 ≤ r.speedOverGround) = true :=
                fun h => hb ⟨hA, h⟩
              simpa using not_le.mp (by simpa using hB)
            · exact Or.inr (Or.inl (fun hp => hA ((mmsiConstrOk_iff _).mpr hp)))
    · intro h
      rcases h with rfl | ⟨r, rfl, hcond⟩
      · rfl
      · rcases hcond with hm | hmm | hsp
        · simp [validate_extract_vessel_data, model_validate_json, hm]
        · cases hmt : r.msgtime with
          | none => simp [validate_extract_vessel_data, model_validate_json, hmt]
          | some t =>
            have hA : mmsiConstrOk (cast_mmsi r.mmsi) = false := by
              rw [Bool.eq_false_iff]
              exact fun h => hmm ((mmsiConstrOk_iff _).mp h)
            simp [validate_extract_vessel_data, model_validate_json, hmt, hA]
        · cases hmt : r.msgtime with
          | none => simp [validate_extract_vessel_data, model_validate_json, hmt]
          | some t =>
            have hB : decide (0 ≤ r.speedOverGround) = false :=
              decide_eq_false (not_le.mpr hsp)
            simp [validate_extract_vessel_data, model_validate_json, hmt, hB]
  · intro r e
    rfl

/-- Claim C7: every successfully validated line yields a record whose
timestamp has its sub-second component discarded and whose created_at is
the nanosecond clock reading taken at validation time; in particular the
scenario line with identifier 123456789, speed 5.0 and timestamp
2022-12-12T10:10:10.123456 validates to that id and speed with timestamp
2022-12-12T10:10:10. -/
theorem validate_truncates_and_stamps :
    (∀ (now : Int) (line : Option RawRecord) (out : VesselDataDict),
        validate_extract_vessel_data now line = .ok (some out) →
        out.msgtime.microsecond = 0 ∧ out.created_at = now) ∧
    (∀ now : Int,
        validate_extract_vessel_data now (some scenario_line) =
          .ok (some { mmsi := "123456789", speedOverGround := 5, msgtime := dt0,
                      created_at := now })) := by
  constructor
  · intro now line out hval
    cases line with
    | none => simp [validate_extract_vessel_data, model_validate_json] at hval
    | some r =>
      cases hm : r.msgtime with
      | none => simp [validate_extract_vessel_data, model_validate_json, hm] at hval
      | some t =>
        by_cases hb : (mmsiConstrOk (cast_mmsi r.mmsi) &&
            decide (0 ≤ r.speedOverGround)) = true
        · have hred : validate_extract_vessel_data now (some r) =
              .ok (some { mmsi := cast_mmsi r.mmsi,
                          speedOverGround := r.speedOverGround,
                          msgtime := truncate_ms t, created_at := now }) := by
            simp [validate_extract_vessel_data, model_validate_json, hm, hb]
          rw [hred] at hval
          simp only [Except.ok.injEq, Option.some.injEq] at hval
          rw [← hval]
          exact ⟨rfl, rfl⟩
        · simp [validate_extract_vessel_data, model_validate_json, hm, hb] at hval
  · intro now
    rfl

/-- Witness for claim C7: the general truncation property applied to the
scenario line at clock reading 7. -/
theorem validate_truncates_and_stamps_witness :
    ({ mmsi := "123456789", speedOverGround := 5, msgtime := dt0, created_at := 7 } :
        VesselDataDict).msgtime.microsecond = 0 ∧
    ({ mmsi := "123456789", speedOverGround := 5, msgtime := dt0, created_at := 7 } :
        VesselDataDict).created_at = 7 :=
  validate_truncates_and_stamps.1 7 (some scenario_line) _ rfl

/-- The pydantic body of the validator only ever raises ValidationError:
its every failure path is the one exception class the except clause of
validate_extract_vessel_data catches. -/
theorem model_validate_json_error_is_validation (line : Option RawRecord)
    (e : PyExc) (h : model_validate_json line = .error e) :
    e = .validationError := by
  cases line with
  | none =>
    simp [model_validate_json] at h
    exact h.symm
  | some r =>
    cases hm : r.msgtime with
    | none =>
      simp [model_validate_json, hm] at h
      exact h.symm
    | some t =>
      by_cases hb : (mmsiConstrOk (cast_mmsi r.mmsi) &&
          decide (0 ≤ r.speedOverGround)) = true
      · simp [model_validate_json, hm, hb] at h
      · simp [model_validate_json, hm, hb] at h
        exact h.symm

/-- Claim C8: for every input line, validation returns a normal value, a
record or the rejection none, and never lets an exception escape. -/
theorem validate_never_raises (now : Int) (line : Option RawRecord) :
    ∃ result : Option VesselDataDict,
      validate_extract_vessel_data now line = .ok result := by
  unfold validate_extract_vessel_data
  cases hv : model_validate_json line with
  | ok m => exact ⟨_, rfl⟩
  | error e =>
    have he := model_validate_json_error_is_validation line e hv
    subst he
    exact ⟨none, rfl⟩
